import Mathlib

/-!
Verification of the photo-classification pipeline of the
beautiful-photos-worker-cron repository.

The development shallowly embeds the pipeline:

* `parseClassificationResponse`, `callOpenRouterAPI`,
  `classifyPhotoWithFallback` follow src/api/openrouter-client.ts; the
  network transport is supplied as data (`TierContent`) because only the
  post-transport behaviour (parsing, validation, tier fallback) carries
  decision logic.
* `DB`, `markPhotoAsProcessing`, `saveClassification`,
  `saveClassificationError`, `getUnclassifiedPhotos` follow
  src/db/classification-queries.ts over an explicit relational state.
* `classifyPhotos` follows src/classifiers/photo-classifier.ts, with the
  per-photo attempt outcome supplied as data.
* A small interleaving machine models two overlapping batch runs sharing
  one database, for the concurrency property.

Timestamps are milliseconds as `Nat`; confidence scores are `ℚ`.
-/

namespace BeautifulPhotos

/-- A validated classification: five tag lists and a confidence score
(`ClassificationResult` in src/helpers/types.ts). -/
structure ClassificationResult where
  content_tags : List String
  people_tags : List String
  mood_tags : List String
  color_tags : List String
  quality_tags : List String
  confidence_score : ℚ
deriving DecidableEq

/-- The JSON object decoded from the model reply, before business-rule
validation.  A field is `none` when it is missing or not an array of
strings (the `!parsed.x || !Array.isArray(parsed.x)` checks);
`confidence` is `none` when missing or not a number. -/
structure RawResponse where
  content_tags : Option (List String)
  people_tags : Option (List String)
  mood_tags : Option (List String)
  color_tags : Option (List String)
  quality_tags : Option (List String)
  confidence : Option ℚ
deriving DecidableEq

/-- `!parsed.x || !Array.isArray(parsed.x)` guard of
`parseClassificationResponse`. -/
def requireTagList (field : Option (List String)) (msg : String) :
    Except String (List String) :=
  match field with
  | some l => Except.ok l
  | none => Except.error msg

/-- Business-rule validation of `parseClassificationResponse` in
src/api/openrouter-client.ts, applied after JSON structural parsing:
field presence, confidence range with 0.0 default, the people-presence
and proximity rules, and the minimum tag counts, in source order. -/
def parseClassificationResponse (r : RawResponse) :
    Except String ClassificationResult := do
  let content ← requireTagList r.content_tags "Missing or invalid content_tags"
  let people ← requireTagList r.people_tags "Missing or invalid people_tags"
  let mood ← requireTagList r.mood_tags "Missing or invalid mood_tags"
  let color ← requireTagList r.color_tags "Missing or invalid color_tags"
  let quality ← requireTagList r.quality_tags "Missing or invalid quality_tags"
  let confidence : ℚ := r.confidence.getD 0
  if confidence < 0 ∨ 1 < confidence then
    throw "Invalid confidence score"
  if ¬("people" ∈ people ∨ "no_people" ∈ people) then
    throw "people_tags must include either \"people\" or \"no_people\""
  if "people" ∈ people ∧ ¬("close" ∈ people ∨ "distant" ∈ people) then
    throw "people_tags with \"people\" must include either \"close\" or \"distant\""
  if content.length < 2 then
    throw "content_tags must have at least 2 tags"
  if mood.length < 1 then
    throw "mood_tags must have at least 1 tag"
  if color.length < 2 then
    throw "color_tags must have at least 2 tags"
  if quality.length < 2 then
    throw "quality_tags must have at least 2 tags"
  return ⟨content, people, mood, color, quality, confidence⟩

/-- What one tier of the external service produced for a request: a
transport-level failure (non-2xx status, network error, empty choices),
a reply whose content is not parseable JSON, or a decoded JSON object. -/
inductive TierContent where
  | transportError (msg : String)
  | badJson (msg : String)
  | parsed (r : RawResponse)
deriving DecidableEq

/-- `callOpenRouterAPI` of src/api/openrouter-client.ts: a transport
failure or JSON-parse failure is an error; otherwise the decoded content
goes through `parseClassificationResponse` (so a business-rule
validation failure is also an error thrown from inside this call). -/
def callOpenRouterAPI (resp : TierContent) : Except String ClassificationResult :=
  match resp with
  | TierContent.transportError m => Except.error m
  | TierContent.badJson m => Except.error m
  | TierContent.parsed r => parseClassificationResponse r

/-- The two model tiers (`FREE_MODEL` / `PAID_MODEL`). -/
inductive ModelTier where
  | free
  | paid
deriving DecidableEq

/-- `classifyPhotoWithFallback` of src/api/openrouter-client.ts.  The
`try`/`catch` wraps the whole `callOpenRouterAPI` call on the free tier,
so any error it throws — transport, JSON parse, or business-rule
validation — reaches the `catch` and triggers the paid-tier call.
Returns the attempt result together with the list of tiers actually
called. -/
def classifyPhotoWithFallback (freeResp paidResp : TierContent) :
    Except String (ClassificationResult × ModelTier) × List ModelTier :=
  match callOpenRouterAPI freeResp with
  | Except.ok result => (Except.ok (result, ModelTier.free), [ModelTier.free])
  | Except.error _ =>
    match callOpenRouterAPI paidResp with
    | Except.ok result =>
        (Except.ok (result, ModelTier.paid), [ModelTier.free, ModelTier.paid])
    | Except.error e => (Except.error e, [ModelTier.free, ModelTier.paid])

/-- A structurally valid free-tier reply that violates the proximity
business rule: `people` present without `close`/`distant`. -/
def rawPeopleNoProximity : RawResponse :=
  ⟨some ["nature", "sky"], some ["people"], some ["peaceful"],
   some ["blue", "white"], some ["sharp", "professional"], some 1⟩

/-- A fully valid reply (the §8 example of the specification). -/
def rawGoodExample : RawResponse :=
  ⟨some ["nature", "sky"], some ["no_people"], some ["peaceful"],
   some ["blue", "white"], some ["sharp", "professional"], some 1⟩

/-- The validated result of `rawGoodExample`. -/
def goodExampleResult : ClassificationResult :=
  ⟨["nature", "sky"], ["no_people"], ["peaceful"],
   ["blue", "white"], ["sharp", "professional"], 1⟩

/-! ## Relational state (tables of the photo_classifications migration) -/

/-- A row of the `photos` table (owned by the upstream ingestion). -/
structure Photo where
  photo_id : String
  data_json : String
  created_ts : Nat
deriving DecidableEq

/-- A row of the `photo_classifications` table. -/
structure ClassRow where
  photo_id : String
  all_tags_searchable : String
  classification_status : String
  confidence_score : Option ℚ
  retry_count : Nat
  last_attempt_ts : Option Nat
  completed_ts : Option Nat
  error_message : Option String
deriving DecidableEq

/-- A row of the `tags` dictionary table. -/
structure Tag where
  tag_id : Nat
  tag_name : String
  tag_category : String
  usage_count : Nat
  created_ts : Nat
deriving DecidableEq

/-- The relational state touched by the pipeline: the classification
table, the tag dictionary, the `photo_tags` association pairs
(photo_id, tag_id), and the AUTOINCREMENT counter for `tag_id`. -/
structure DB where
  classifications : List ClassRow
  tags : List Tag
  photo_tags : List (String × Nat)
  next_tag_id : Nat
deriving DecidableEq

/-- The freshly migrated database: no rows, `tag_id` counter at 1. -/
def DB.empty : DB := ⟨[], [], [], 1⟩

/-- Row lookup by primary key (`WHERE photo_id = ?`). -/
def findRow (db : DB) (pid : String) : Option ClassRow :=
  db.classifications.find? (fun r => r.photo_id == pid)

/-- `UPDATE photo_classifications SET ... WHERE photo_id = ?`: apply `f`
to every row keyed by `pid` (at most one on reachable states); a no-op
when the row is absent, exactly like SQL `UPDATE`. -/
def updateRow (db : DB) (pid : String) (f : ClassRow → ClassRow) : DB :=
  { db with classifications :=
      db.classifications.map (fun r => if r.photo_id == pid then f r else r) }

/-- `markPhotoAsProcessing` of src/db/classification-queries.ts: the
claim upsert.  `INSERT ... VALUES (?, '', 'processing', ?, 0)
ON CONFLICT(photo_id) DO UPDATE SET classification_status='processing',
last_attempt_ts=?, retry_count=retry_count+1`. -/
def markPhotoAsProcessing (db : DB) (pid : String) (now : Nat) : DB :=
  if (findRow db pid).isSome then
    updateRow db pid (fun r =>
      { r with classification_status := "processing",
               last_attempt_ts := some now,
               retry_count := r.retry_count + 1 })
  else
    { db with classifications := db.classifications ++
        [⟨pid, "", "processing", none, 0, some now, none, none⟩] }

/-- `saveClassificationError` of src/db/classification-queries.ts:
`UPDATE ... SET classification_status='failed', error_message=?`. -/
def saveClassificationError (db : DB) (pid : String) (msg : String) : DB :=
  updateRow db pid (fun r =>
    { r with classification_status := "failed", error_message := some msg })

/-- All tags of a result concatenated in the source's fixed category
order: content, people, mood, color, quality. -/
def allTagsOf (c : ClassificationResult) : List String :=
  c.content_tags ++ c.people_tags ++ c.mood_tags ++ c.color_tags ++ c.quality_tags

/-- The `tagCategories` iteration order of `saveClassification`:
(tag name, category) pairs, categories in source order. -/
def taggedPairs (c : ClassificationResult) : List (String × String) :=
  c.content_tags.map (fun n => (n, "content")) ++
  c.people_tags.map (fun n => (n, "people")) ++
  c.mood_tags.map (fun n => (n, "mood")) ++
  c.color_tags.map (fun n => (n, "color")) ++
  c.quality_tags.map (fun n => (n, "quality"))

/-- The `DO UPDATE SET usage_count = usage_count + 1` action applied to
a row when its `tag_name` conflicts. -/
def incTag (name : String) (t : Tag) : Tag :=
  if t.tag_name == name then { t with usage_count := t.usage_count + 1 } else t

/-- `INSERT INTO tags ... VALUES (?, ?, 1, ?) ON CONFLICT(tag_name)
DO UPDATE SET usage_count = usage_count + 1`.  `tag_name` is UNIQUE, so
on reachable states at most one row matches. -/
def upsertTag (db : DB) (name cat : String) (now : Nat) : DB :=
  if db.tags.any (fun t => t.tag_name == name) then
    { db with tags := db.tags.map (incTag name) }
  else
    { db with tags := db.tags ++ [⟨db.next_tag_id, name, cat, 1, now⟩],
              next_tag_id := db.next_tag_id + 1 }

/-- `SELECT tag_id FROM tags WHERE tag_name = ?`. -/
def findTagId (db : DB) (name : String) : Option Nat :=
  (db.tags.find? (fun t => t.tag_name == name)).map (fun t => t.tag_id)

/-- `INSERT OR IGNORE INTO photo_tags (photo_id, tag_id) VALUES (?, ?)`. -/
def insertPhotoTag (db : DB) (pid : String) (tid : Nat) : DB :=
  if (pid, tid) ∈ db.photo_tags then db
  else { db with photo_tags := db.photo_tags ++ [(pid, tid)] }

/-- One iteration of the inner tag loop of `saveClassification`: upsert
the tag, look its id up, link the photo to it (skipped if the id lookup
fails, as in the `if (tagResult)` guard). -/
def linkTag (db : DB) (pid name cat : String) (now : Nat) : DB :=
  match findTagId (upsertTag db name cat now) name with
  | some tid => insertPhotoTag (upsertTag db name cat now) pid tid
  | none => upsertTag db name cat now

/-- `saveClassification` of src/db/classification-queries.ts:
1. build the space-joined searchable string in category order;
2. update the classification row (status completed, confidence,
   completed_ts, searchable text — and nothing else);
3. delete the photo's existing `photo_tags` rows;
4. for every tag occurrence, upsert the tag and insert the association. -/
def saveClassification (db : DB) (pid : String) (c : ClassificationResult)
    (now : Nat) : DB :=
  let searchable := String.intercalate " " (allTagsOf c)
  let db1 := updateRow db pid (fun r =>
    { r with all_tags_searchable := searchable,
             classification_status := "completed",
             confidence_score := some c.confidence_score,
             completed_ts := some now })
  let db2 := { db1 with photo_tags := db1.photo_tags.filter (fun pt => pt.1 != pid) }
  (taggedPairs c).foldl (fun d p => linkTag d pid p.1 p.2 now) db2

/-! ## Selection -/

/-- The staleness window: `5 * 60 * 1000` milliseconds. -/
def fiveMinutesMs : Nat := 5 * 60 * 1000

/-- The `WHERE` clause of `getUnclassifiedPhotos`: no classification row,
or failed with `retry_count < 3`, or processing with
`last_attempt_ts < now - 5min` (a NULL `last_attempt_ts` compares
false, as in SQL). -/
def eligibleB (db : DB) (now : Nat) (p : Photo) : Bool :=
  match findRow db p.photo_id with
  | none => true
  | some r =>
    (r.classification_status == "failed" && decide (r.retry_count < 3)) ||
    (r.classification_status == "processing" &&
      match r.last_attempt_ts with
      | some la => decide (la < now - fiveMinutesMs)
      | none => false)

/-- `ORDER BY p.created_ts DESC`. -/
def byRecency (a b : Photo) : Prop := b.created_ts ≤ a.created_ts

instance : DecidableRel byRecency := fun a b => Nat.decLe b.created_ts a.created_ts

instance : IsTotal Photo byRecency :=
  ⟨fun a b => le_total b.created_ts a.created_ts⟩

instance : IsTrans Photo byRecency :=
  ⟨fun _ _ _ hab hbc => le_trans hbc hab⟩

/-- `getUnclassifiedPhotos` of src/db/classification-queries.ts:
filter by the eligibility clause, order by photo recency (newest
first), and cut to `limit` rows. -/
def getUnclassifiedPhotos (db : DB) (photos : List Photo) (limit now : Nat) :
    List Photo :=
  (((photos.filter (eligibleB db now)).insertionSort byRecency).take limit)

/-! ## Batch orchestrator (src/classifiers/photo-classifier.ts) -/

/-- What the per-photo work between the claim and the save produced:
either a validated result (with the tier that supplied it), or a thrown
error — `data_json` parse failure, missing `raw_path`, or a terminal
error from `classifyPhotoWithFallback`. -/
inductive AttemptOutcome where
  | success (result : ClassificationResult) (tier : ModelTier)
  | failure (msg : String)
deriving DecidableEq

/-- Whether an attempt outcome is a thrown error. -/
def isFailureOutcome (o : AttemptOutcome) : Bool :=
  match o with
  | AttemptOutcome.failure _ => true
  | AttemptOutcome.success _ _ => false

/-- The `ClassificationStats` accumulator of `classifyPhotos`. -/
structure ClassificationStats where
  processed : Nat
  successful : Nat
  failed : Nat
  skipped : Nat
deriving DecidableEq

/-- `classifySinglePhoto`: claim the photo first, then run the attempt;
a success is saved, a failure surfaces as the thrown message together
with the state as mutated so far (the claim is already persisted). -/
def classifySinglePhoto (db : DB) (p : Photo)
    (outcome : String → AttemptOutcome) (now : Nat) : DB × Option String :=
  let db1 := markPhotoAsProcessing db p.photo_id now
  match outcome p.photo_id with
  | AttemptOutcome.success r _ => (saveClassification db1 p.photo_id r now, none)
  | AttemptOutcome.failure msg => (db1, some msg)

/-- The body of the `for (const photo of photos)` loop of
`classifyPhotos`: count the photo as processed; on an exception from
`classifySinglePhoto`, catch it, count the photo as failed and persist
the error via `saveClassificationError`; otherwise count it as
successful. -/
def classifyStep (outcome : String → AttemptOutcome) (now : Nat)
    (acc : DB × ClassificationStats) (p : Photo) : DB × ClassificationStats :=
  let stats1 := { acc.2 with processed := acc.2.processed + 1 }
  match classifySinglePhoto acc.1 p outcome now with
  | (db1, none) => (db1, { stats1 with successful := stats1.successful + 1 })
  | (db1, some msg) =>
      (saveClassificationError db1 p.photo_id msg,
       { stats1 with failed := stats1.failed + 1 })

/-- `classifyPhotos`: select the batch, then process it sequentially,
never letting one photo's failure abort the rest. -/
def classifyPhotos (db : DB) (photos : List Photo) (limit : Nat)
    (outcome : String → AttemptOutcome) (now : Nat) : DB × ClassificationStats :=
  (getUnclassifiedPhotos db photos limit now).foldl
    (classifyStep outcome now) (db, ⟨0, 0, 0, 0⟩)

/-! ## Operation sequences (reachable states) -/

/-- The database mutations the pipeline performs on the classification
tables: the claim upsert, the success save, and the failure save. -/
inductive Op where
  | claim (pid : String) (now : Nat)
  | save (pid : String) (c : ClassificationResult) (now : Nat)
  | saveError (pid : String) (msg : String)

/-- Interpret one operation. -/
def applyOp (db : DB) (op : Op) : DB :=
  match op with
  | Op.claim pid now => markPhotoAsProcessing db pid now
  | Op.save pid c now => saveClassification db pid c now
  | Op.saveError pid msg => saveClassificationError db pid msg

/-- Interpret a sequence of operations, oldest first. -/
def applyOps (db : DB) (ops : List Op) : DB :=
  ops.foldl applyOp db

/-- The number of `photo_tags` rows referencing a tag id. -/
def rowCount (db : DB) (tid : Nat) : Nat :=
  (db.photo_tags.filter (fun pt => pt.2 == tid)).length

/-- The `usage_count` of the tag named `name`, if present. -/
def usageOfTag (db : DB) (name : String) : Option Nat :=
  (db.tags.find? (fun t => t.tag_name == name)).map (fun t => t.usage_count)

/-- The number of `photo_tags` rows referencing the tag named `name`. -/
def rowCountOfTag (db : DB) (name : String) : Option Nat :=
  (db.tags.find? (fun t => t.tag_name == name)).map (fun t => rowCount db t.tag_id)

/-- The tag names currently associated to a photo through `photo_tags`. -/
def assocTagNames (db : DB) (pid : String) : List String :=
  (db.tags.filter (fun t => decide ((pid, t.tag_id) ∈ db.photo_tags))).map
    (fun t => t.tag_name)

/-! ## Two overlapping batch runs (concurrency model)

Cloudflare invocations interleave at `await` boundaries; each D1
statement is atomic.  One run is a small state machine: select the
batch, then for each selected photo claim it and call the external
service (the call is recorded in a trace; its successful save is folded
into the same step, which only shrinks the set of interleavings and so
is sound for exhibiting a reachable trace). -/

/-- The control point of one batch run. -/
inductive RunPhase where
  | ready
  | haveBatch (pids : List String)
  | claimed (pids : List String)
  | finished
deriving DecidableEq

/-- Shared world: the database, the trace of photo ids passed to the
external classification service, and the two runs' control points. -/
structure World where
  db : DB
  calls : List String
  runA : RunPhase
  runB : RunPhase
deriving DecidableEq

/-- One atomic step of a single run: selection, a claim, or an external
call followed by its save. -/
def runStep (photos : List Photo) (limit : Nat) (rc : ClassificationResult)
    (now : Nat) (db : DB) (calls : List String) (ph : RunPhase) :
    DB × List String × RunPhase :=
  match ph with
  | RunPhase.ready =>
      (db, calls,
       RunPhase.haveBatch ((getUnclassifiedPhotos db photos limit now).map
         (fun p => p.photo_id)))
  | RunPhase.haveBatch [] => (db, calls, RunPhase.finished)
  | RunPhase.haveBatch (pid :: rest) =>
      (markPhotoAsProcessing db pid now, calls, RunPhase.claimed (pid :: rest))
  | RunPhase.claimed [] => (db, calls, RunPhase.finished)
  | RunPhase.claimed (pid :: rest) =>
      (saveClassification db pid rc now, calls ++ [pid], RunPhase.haveBatch rest)
  | RunPhase.finished => (db, calls, RunPhase.finished)

/-- Advance the run chosen by the scheduler (`true` = run A). -/
def schedStep (photos : List Photo) (limit : Nat) (rc : ClassificationResult)
    (now : Nat) (w : World) (pickA : Bool) : World :=
  if pickA then
    let s := runStep photos limit rc now w.db w.calls w.runA
    { w with db := s.1, calls := s.2.1, runA := s.2.2 }
  else
    let s := runStep photos limit rc now w.db w.calls w.runB
    { w with db := s.1, calls := s.2.1, runB := s.2.2 }

/-- Execute a schedule (one entry per step) from an initial database,
both runs at their entry point. -/
def runSchedule (photos : List Photo) (limit : Nat) (rc : ClassificationResult)
    (now : Nat) (db0 : DB) (sched : List Bool) : World :=
  sched.foldl (schedStep photos limit rc now) ⟨db0, [], RunPhase.ready, RunPhase.ready⟩

/-! ## Well-formedness and invariants -/

/-- Structural facts the schema enforces: `tag_name` UNIQUE, `tag_id`
PRIMARY KEY AUTOINCREMENT (distinct, below the counter), and every
`photo_tags.tag_id` below the counter. -/
def WF (db : DB) : Prop :=
  (db.tags.map (fun t => t.tag_name)).Nodup ∧
  (db.tags.map (fun t => t.tag_id)).Nodup ∧
  (∀ t ∈ db.tags, t.tag_id < db.next_tag_id) ∧
  (∀ pt ∈ db.photo_tags, pt.2 < db.next_tag_id)

/-- Every tag's `usage_count` bounds the number of `photo_tags` rows
referencing it from above. -/
def UsageInv (db : DB) : Prop :=
  ∀ t ∈ db.tags, rowCount db t.tag_id ≤ t.usage_count

/-! ## Concrete instances used by counterexamples and witnesses -/

/-- A minimal result passing every business rule. -/
def cSmall : ClassificationResult :=
  ⟨["a", "b"], ["no_people"], ["m"], ["c", "d"], ["q", "r"], 1⟩

/-- A second valid result sharing no tag with `cSmall`. -/
def cAlt : ClassificationResult :=
  ⟨["x", "y"], ["no_people"], ["z"], ["u", "v"], ["w", "s"], 1⟩

/-- Claim, save, re-claim, re-save the same photo with the same result. -/
def opsC2 : List Op :=
  [Op.claim "p1" 10, Op.save "p1" cSmall 20, Op.claim "p1" 30, Op.save "p1" cSmall 40]

/-- The state after `opsC2`. -/
def dC2 : DB := applyOps DB.empty opsC2

/-- The state after the first claim of a fresh photo followed by a
failed attempt. -/
def dC3 : DB :=
  saveClassificationError (markPhotoAsProcessing DB.empty "p1" 1000) "p1"
    "people_tags with \"people\" must include either \"close\" or \"distant\""

/-- A row left behind by a failed attempt. -/
def rowC4 : ClassRow := ⟨"p1", "", "failed", none, 1, some 50, none, some "previous error"⟩

/-- A database holding only `rowC4`. -/
def dbC4 : DB := ⟨[rowC4], [], [], 1⟩

/-- A photo used by the selection counterexamples. -/
def pC5 : Photo := ⟨"p1", "d", 100⟩

/-- A classification row with status `pending` for `pC5` (reachable via
the force-reset path of the test handler; also the schema default). -/
def rowPending : ClassRow := ⟨"p1", "", "pending", none, 0, none, none, none⟩

/-- A database in which `pC5` has a `pending` row. -/
def dbPending : DB := ⟨[rowPending], [], [], 1⟩

/-- A database obtained by claiming `p1` at time 50. -/
def dbC6 : DB := markPhotoAsProcessing DB.empty "p1" 50

/-- The row the claim at time 50 inserted. -/
def rowC6 : ClassRow := ⟨"p1", "", "processing", none, 0, some 50, none, none⟩

/-- A photo that exhausted its retries. -/
def rowRetryCap : ClassRow := ⟨"p1", "", "failed", none, 3, some 10, none, some "e"⟩

/-- A database where `pC5` is failed with `retry_count = 3` and a second
photo has no row. -/
def dbC7 : DB := ⟨[rowRetryCap], [], [], 1⟩

/-- A second, never-classified photo. -/
def pC7b : Photo := ⟨"p2", "d", 90⟩

/-- Attempt oracle: `p1` throws, every other photo succeeds. -/
def outcomeC9 : String → AttemptOutcome := fun pid =>
  if pid == "p1" then AttemptOutcome.failure "boom"
  else AttemptOutcome.success cSmall ModelTier.free

/-- Schedule for two overlapping runs in which both selection steps
precede either claim: A selects, B selects, A claims and calls, B
claims and calls. -/
def schedC10 : List Bool := [true, false, true, true, false, false]

/-! ## Helper lemmas: `find?` over row maps -/

theorem find?_map_pres {α : Type} (l : List α) (g : α → α) (p : α → Bool)
    (hp : ∀ a, p (g a) = p a) : (l.map g).find? p = (l.find? p).map g := by
  rw [List.find?_map]
  have hpg : p ∘ g = p := funext hp
  rw [hpg]

theorem find?_map_fix {α : Type} (l : List α) (g : α → α) (p : α → Bool)
    (hp : ∀ a, p (g a) = p a) (hfix : ∀ a, p a = true → g a = a) :
    (l.map g).find? p = l.find? p := by
  rw [find?_map_pres l g p hp]
  cases h : l.find? p with
  | none => rfl
  | some a => simp [hfix a (List.find?_some h)]

theorem find?_map_update {α : Type} (l : List α) (f : α → α) (p : α → Bool)
    (hp : ∀ a, p (f a) = p a) :
    (l.map (fun a => if p a then f a else a)).find? p = (l.find? p).map f := by
  have hg : ∀ a, p (if p a then f a else a) = p a := by
    intro a; by_cases h : p a <;> simp [h, hp]
  rw [find?_map_pres l _ p hg]
  cases h : l.find? p with
  | none => rfl
  | some a => simp [List.find?_some h]

theorem findRow_congr {db1 db2 : DB} (pid : String)
    (h : db1.classifications = db2.classifications) :
    findRow db1 pid = findRow db2 pid := by
  unfold findRow; rw [h]

theorem findRow_updateRow_self (db : DB) (pid : String) (f : ClassRow → ClassRow)
    (hf : ∀ r, (f r).photo_id = r.photo_id) :
    findRow (updateRow db pid f) pid = (findRow db pid).map f := by
  unfold findRow updateRow
  exact find?_map_update db.classifications f (fun r => r.photo_id == pid)
    (fun r => by show ((f r).photo_id == pid) = (r.photo_id == pid); rw [hf])

theorem findRow_updateRow_ne (db : DB) (q pid : String) (f : ClassRow → ClassRow)
    (hf : ∀ r, (f r).photo_id = r.photo_id) (hne : q ≠ pid) :
    findRow (updateRow db q f) pid = findRow db pid := by
  unfold findRow updateRow
  apply find?_map_fix
  · intro r
    cases h : (r.photo_id == q) with
    | false => simp [h]
    | true => simp [h, hf]
  · intro r hr
    have h1 : r.photo_id = pid := by simpa using hr
    have h2 : (r.photo_id == q) = false := by
      rw [h1]
      exact beq_eq_false_iff_ne.mpr (fun e => hne (Eq.symm e))
    simp [h2]

/-! ## Helper lemmas: field preservation -/

theorem updateRow_tags (db : DB) (pid : String) (f : ClassRow → ClassRow) :
    (updateRow db pid f).tags = db.tags := rfl

theorem updateRow_photo_tags (db : DB) (pid : String) (f : ClassRow → ClassRow) :
    (updateRow db pid f).photo_tags = db.photo_tags := rfl

theorem updateRow_next (db : DB) (pid : String) (f : ClassRow → ClassRow) :
    (updateRow db pid f).next_tag_id = db.next_tag_id := rfl

theorem mark_tags (db : DB) (pid : String) (now : Nat) :
    (markPhotoAsProcessing db pid now).tags = db.tags := by
  unfold markPhotoAsProcessing; split <;> rfl

theorem mark_photo_tags (db : DB) (pid : String) (now : Nat) :
    (markPhotoAsProcessing db pid now).photo_tags = db.photo_tags := by
  unfold markPhotoAsProcessing; split <;> rfl

theorem mark_next (db : DB) (pid : String) (now : Nat) :
    (markPhotoAsProcessing db pid now).next_tag_id = db.next_tag_id := by
  unfold markPhotoAsProcessing; split <;> rfl

theorem upsertTag_classifications (db : DB) (name cat : String) (now : Nat) :
    (upsertTag db name cat now).classifications = db.classifications := by
  unfold upsertTag; split <;> rfl

theorem upsertTag_photo_tags (db : DB) (name cat : String) (now : Nat) :
    (upsertTag db name cat now).photo_tags = db.photo_tags := by
  unfold upsertTag; split <;> rfl

theorem insertPhotoTag_classifications (db : DB) (pid : String) (tid : Nat) :
    (insertPhotoTag db pid tid).classifications = db.classifications := by
  unfold insertPhotoTag; split <;> rfl

theorem insertPhotoTag_tags (db : DB) (pid : String) (tid : Nat) :
    (insertPhotoTag db pid tid).tags = db.tags := by
  unfold insertPhotoTag; split <;> rfl

theorem insertPhotoTag_next (db : DB) (pid : String) (tid : Nat) :
    (insertPhotoTag db pid tid).next_tag_id = db.next_tag_id := by
  unfold insertPhotoTag; split <;> rfl

theorem linkTag_classifications (db : DB) (pid name cat : String) (now : Nat) :
    (linkTag db pid name cat now).classifications = db.classifications := by
  unfold linkTag
  split
  · rw [insertPhotoTag_classifications, upsertTag_classifications]
  · exact upsertTag_classifications db name cat now

theorem foldl_linkTag_classifications (pairs : List (String × String)) (db : DB)
    (pid : String) (now : Nat) :
    (pairs.foldl (fun d p => linkTag d pid p.1 p.2 now) db).classifications =
      db.classifications := by
  induction pairs generalizing db with
  | nil => rfl
  | cons p rest ih => rw [List.foldl_cons, ih, linkTag_classifications]

theorem save_classifications (db : DB) (pid : String) (c : ClassificationResult)
    (now : Nat) :
    (saveClassification db pid c now).classifications =
      (updateRow db pid (fun r =>
        { r with all_tags_searchable := String.intercalate " " (allTagsOf c),
                 classification_status := "completed",
                 confidence_score := some c.confidence_score,
                 completed_ts := some now })).classifications := by
  unfold saveClassification
  rw [foldl_linkTag_classifications]

/-! ## Helper lemmas: `findRow` after each operation -/

theorem findRow_mark_of_none (db : DB) (pid : String) (now : Nat)
    (h : findRow db pid = none) :
    findRow (markPhotoAsProcessing db pid now) pid =
      some ⟨pid, "", "processing", none, 0, some now, none, none⟩ := by
  unfold markPhotoAsProcessing
  rw [h]
  simp only [Option.isSome_none, Bool.false_eq_true, if_false]
  unfold findRow at h ⊢
  simp [List.find?_append, h]

theorem findRow_mark_of_some (db : DB) (pid : String) (now : Nat) (r : ClassRow)
    (h : findRow db pid = some r) :
    findRow (markPhotoAsProcessing db pid now) pid =
      some { r with classification_status := "processing",
                    last_attempt_ts := some now,
                    retry_count := r.retry_count + 1 } := by
  unfold markPhotoAsProcessing
  rw [h]
  simp only [Option.isSome_some, if_true]
  rw [findRow_updateRow_self db pid
    (fun r => { r with classification_status := "processing",
                       last_attempt_ts := some now,
                       retry_count := r.retry_count + 1 }) (fun _ => rfl), h]
  rfl

theorem findRow_mark_ne (db : DB) (q pid : String) (now : Nat) (hne : q ≠ pid) :
    findRow (markPhotoAsProcessing db q now) pid = findRow db pid := by
  unfold markPhotoAsProcessing
  split
  · exact findRow_updateRow_ne db q pid _ (fun _ => rfl) hne
  · unfold findRow
    rw [List.find?_append]
    have h2 : (q == pid) = false := beq_eq_false_iff_ne.mpr hne
    simp [h2]

theorem findRow_saveError_of_some (db : DB) (pid : String) (msg : String)
    (r : ClassRow) (h : findRow db pid = some r) :
    findRow (saveClassificationError db pid msg) pid =
      some { r with classification_status := "failed",
                    error_message := some msg } := by
  unfold saveClassificationError
  rw [findRow_updateRow_self db pid
    (fun r => { r with classification_status := "failed",
                       error_message := some msg }) (fun _ => rfl), h]
  rfl

theorem findRow_saveError_ne (db : DB) (q pid msg : String) (hne : q ≠ pid) :
    findRow (saveClassificationError db q msg) pid = findRow db pid :=
  findRow_updateRow_ne db q pid _ (fun _ => rfl) hne

theorem findRow_save_of_some (db : DB) (pid : String) (c : ClassificationResult)
    (now : Nat) (r : ClassRow) (h : findRow db pid = some r) :
    findRow (saveClassification db pid c now) pid =
      some { r with all_tags_searchable := String.intercalate " " (allTagsOf c),
                    classification_status := "completed",
                    confidence_score := some c.confidence_score,
                    completed_ts := some now } := by
  rw [findRow_congr pid (save_classifications db pid c now)]
  rw [findRow_updateRow_self db pid
    (fun r => { r with all_tags_searchable := String.intercalate " " (allTagsOf c),
                       classification_status := "completed",
                       confidence_score := some c.confidence_score,
                       completed_ts := some now }) (fun _ => rfl), h]
  rfl

theorem findRow_save_ne (db : DB) (q pid : String) (c : ClassificationResult)
    (now : Nat) (hne : q ≠ pid) :
    findRow (saveClassification db q c now) pid = findRow db pid := by
  rw [findRow_congr pid (save_classifications db q c now)]
  exact findRow_updateRow_ne db q pid _ (fun _ => rfl) hne

/-! ## Helper lemmas: the selection query -/

theorem length_getUnclassified_le (db : DB) (photos : List Photo) (limit now : Nat) :
    (getUnclassifiedPhotos db photos limit now).length ≤ limit := by
  unfold getUnclassifiedPhotos
  rw [List.length_take]
  exact min_le_left _ _

theorem mem_getUnclassified (db : DB) (photos : List Photo) (limit now : Nat)
    (p : Photo) (hp : p ∈ getUnclassifiedPhotos db photos limit now) :
    p ∈ photos ∧ eligibleB db now p = true := by
  unfold getUnclassifiedPhotos at hp
  have h1 := List.mem_of_mem_take hp
  have h2 := (List.perm_insertionSort byRecency
    (photos.filter (eligibleB db now))).mem_iff.mp h1
  exact ⟨(List.mem_filter.mp h2).1, (List.mem_filter.mp h2).2⟩

theorem sorted_getUnclassified (db : DB) (photos : List Photo) (limit now : Nat) :
    List.Sorted byRecency (getUnclassifiedPhotos db photos limit now) :=
  List.Pairwise.sublist (List.take_sublist _ _)
    (List.sorted_insertionSort byRecency (photos.filter (eligibleB db now)))

theorem getUnclassified_complete (db : DB) (photos : List Photo) (limit now : Nat)
    (hlim : (photos.filter (eligibleB db now)).length ≤ limit) (p : Photo)
    (hp : p ∈ photos) (he : eligibleB db now p = true) :
    p ∈ getUnclassifiedPhotos db photos limit now := by
  unfold getUnclassifiedPhotos
  have hperm := List.perm_insertionSort byRecency (photos.filter (eligibleB db now))
  have hlen : ((photos.filter (eligibleB db now)).insertionSort byRecency).length ≤ limit := by
    rw [hperm.length_eq]; exact hlim
  rw [List.take_of_length_le hlen]
  exact hperm.mem_iff.mpr (List.mem_filter.mpr ⟨hp, he⟩)

theorem eligibleB_of_no_row (db : DB) (now : Nat) (p : Photo)
    (h : findRow db p.photo_id = none) : eligibleB db now p = true := by
  unfold eligibleB
  rw [h]

theorem eligibleB_pending (db : DB) (now : Nat) (p : Photo) (r : ClassRow)
    (h : findRow db p.photo_id = some r)
    (hst : r.classification_status = "pending") :
    eligibleB db now p = false := by
  unfold eligibleB
  rw [h]
  simp [hst]

theorem eligibleB_retry_capped (db : DB) (now : Nat) (p : Photo) (r : ClassRow)
    (h : findRow db p.photo_id = some r)
    (hst : r.classification_status = "failed") (hr : 3 ≤ r.retry_count) :
    eligibleB db now p = false := by
  unfold eligibleB
  rw [h]
  have h1 : decide (r.retry_count < 3) = false := decide_eq_false (not_lt.mpr hr)
  simp [hst, h1]

theorem not_mem_getUnclassified_of_ineligible (db : DB) (photos : List Photo)
    (limit now : Nat) (p : Photo) (he : eligibleB db now p = false) :
    p ∉ getUnclassifiedPhotos db photos limit now := by
  intro hmem
  have := (mem_getUnclassified db photos limit now p hmem).2
  rw [he] at this
  exact Bool.false_ne_true this

/-! ## Helper lemmas: the tag upsert -/

theorem incTag_tag_id (name : String) (t : Tag) : (incTag name t).tag_id = t.tag_id := by
  unfold incTag; split <;> rfl

theorem incTag_tag_name (name : String) (t : Tag) :
    (incTag name t).tag_name = t.tag_name := by
  unfold incTag; split <;> rfl

theorem incTag_usage_ge (name : String) (t : Tag) :
    t.usage_count ≤ (incTag name t).usage_count := by
  unfold incTag; split
  · exact Nat.le_succ _
  · exact le_refl _

theorem incTag_of_match (name : String) (t : Tag) (h : t.tag_name = name) :
    (incTag name t).usage_count = t.usage_count + 1 := by
  unfold incTag
  rw [if_pos (by simp [h])]

/-- The new-tag branch of the upsert, followed by the id lookup and the
association insert, written out as one record. -/
theorem linkTag_eq_new (db : DB) (pid name cat : String) (now : Nat)
    (hAny : db.tags.any (fun t => t.tag_name == name) = false)
    (hpt : ∀ pt ∈ db.photo_tags, pt.2 < db.next_tag_id) :
    linkTag db pid name cat now =
      ⟨db.classifications, db.tags ++ [⟨db.next_tag_id, name, cat, 1, now⟩],
       db.photo_tags ++ [(pid, db.next_tag_id)], db.next_tag_id + 1⟩ := by
  have hup : upsertTag db name cat now =
      { db with tags := db.tags ++ [⟨db.next_tag_id, name, cat, 1, now⟩],
                next_tag_id := db.next_tag_id + 1 } := by
    unfold upsertTag
    rw [hAny]
    simp
  have hnone : db.tags.find? (fun t => t.tag_name == name) = none :=
    List.find?_eq_none.mpr (List.any_eq_false.mp hAny)
  have hfind : findTagId (upsertTag db name cat now) name = some db.next_tag_id := by
    rw [hup]
    unfold findTagId
    show ((db.tags ++ [(⟨db.next_tag_id, name, cat, 1, now⟩ : Tag)]).find?
      (fun t : Tag => t.tag_name == name)).map (fun t : Tag => t.tag_id) =
        some db.next_tag_id
    rw [List.find?_append, hnone]
    simp [List.find?]
  unfold linkTag
  rw [hfind]
  show insertPhotoTag (upsertTag db name cat now) pid db.next_tag_id = _
  rw [hup]
  unfold insertPhotoTag
  rw [if_neg]
  intro hmem
  exact lt_irrefl db.next_tag_id (hpt (pid, db.next_tag_id) hmem)

/-- The conflict branch of the upsert followed by the id lookup: the
matched tag keeps its id, every matching row is incremented. -/
theorem linkTag_eq_exist (db : DB) (pid name cat : String) (now : Nat) (t0 : Tag)
    (hfind : db.tags.find? (fun t => t.tag_name == name) = some t0) :
    linkTag db pid name cat now =
      insertPhotoTag { db with tags := db.tags.map (incTag name) } pid t0.tag_id := by
  have hAny : db.tags.any (fun t => t.tag_name == name) = true := by
    rw [List.any_eq_true]
    have hp := @List.find?_some Tag (fun t : Tag => t.tag_name == name) t0 db.tags hfind
    exact ⟨t0, List.mem_of_find?_eq_some hfind, hp⟩
  have hup : upsertTag db name cat now = { db with tags := db.tags.map (incTag name) } := by
    unfold upsertTag
    rw [hAny]
    simp
  have hpres : ∀ t : Tag, ((incTag name t).tag_name == name) = (t.tag_name == name) := by
    intro t; rw [incTag_tag_name]
  have hfind2 : findTagId { db with tags := db.tags.map (incTag name) } name =
      some t0.tag_id := by
    unfold findTagId
    show ((db.tags.map (incTag name)).find? (fun t => t.tag_name == name)).map
      (fun t => t.tag_id) = some t0.tag_id
    rw [find?_map_pres db.tags (incTag name) (fun t => t.tag_name == name) hpres, hfind]
    simp [incTag_tag_id]
  unfold linkTag
  rw [hup, hfind2]

/-! ## Helper lemmas: well-formedness preservation -/

theorem map_incTag_names (db : DB) (name : String) :
    (db.tags.map (incTag name)).map (fun t => t.tag_name) =
      db.tags.map (fun t => t.tag_name) := by
  rw [List.map_map]
  exact List.map_congr_left (fun t _ => incTag_tag_name name t)

theorem map_incTag_ids (db : DB) (name : String) :
    (db.tags.map (incTag name)).map (fun t => t.tag_id) =
      db.tags.map (fun t => t.tag_id) := by
  rw [List.map_map]
  exact List.map_congr_left (fun t _ => incTag_tag_id name t)

theorem WF_mapInc (db : DB) (name : String) (hwf : WF db) :
    WF { db with tags := db.tags.map (incTag name) } := by
  obtain ⟨hn, hi, hb, hp⟩ := hwf
  refine ⟨?_, ?_, ?_, hp⟩
  · show ((db.tags.map (incTag name)).map (fun t => t.tag_name)).Nodup
    rw [map_incTag_names]
    exact hn
  · show ((db.tags.map (incTag name)).map (fun t => t.tag_id)).Nodup
    rw [map_incTag_ids]
    exact hi
  · intro t' ht'
    obtain ⟨t, ht, rfl⟩ := List.mem_map.mp ht'
    rw [incTag_tag_id]
    exact hb t ht

theorem insertPhotoTag_WF (db : DB) (pid : String) (tid : Nat) (hwf : WF db)
    (htid : tid < db.next_tag_id) : WF (insertPhotoTag db pid tid) := by
  unfold insertPhotoTag
  split
  · exact hwf
  · obtain ⟨hn, hi, hb, hp⟩ := hwf
    refine ⟨hn, hi, hb, ?_⟩
    intro pt hm
    rcases List.mem_append.mp hm with h | h
    · exact hp pt h
    · have he : pt = (pid, tid) := by simpa using h
      rw [he]
      exact htid

theorem linkTag_WF (db : DB) (pid name cat : String) (now : Nat) (hwf : WF db) :
    WF (linkTag db pid name cat now) := by
  cases hAny : db.tags.any (fun t => t.tag_name == name) with
  | false =>
    rw [linkTag_eq_new db pid name cat now hAny hwf.2.2.2]
    obtain ⟨hn, hi, hb, hp⟩ := hwf
    refine ⟨?_, ?_, ?_, ?_⟩
    · show ((db.tags ++ [(⟨db.next_tag_id, name, cat, 1, now⟩ : Tag)]).map
        (fun t => t.tag_name)).Nodup
      rw [List.map_append, List.nodup_append]
      refine ⟨hn, List.nodup_singleton _, ?_⟩
      simp only [List.map_cons, List.map_nil]
      rw [List.disjoint_singleton]
      intro hmem
      obtain ⟨t, ht, hte⟩ := List.mem_map.mp hmem
      exact (List.any_eq_false.mp hAny t ht) (by simp [hte])
    · show ((db.tags ++ [(⟨db.next_tag_id, name, cat, 1, now⟩ : Tag)]).map
        (fun t => t.tag_id)).Nodup
      rw [List.map_append, List.nodup_append]
      refine ⟨hi, List.nodup_singleton _, ?_⟩
      simp only [List.map_cons, List.map_nil]
      rw [List.disjoint_singleton]
      intro hmem
      obtain ⟨t, ht, hte⟩ := List.mem_map.mp hmem
      exact absurd hte (Nat.ne_of_lt (hb t ht))
    · intro t ht
      rcases List.mem_append.mp ht with h | h
      · exact Nat.lt_succ_of_lt (hb t h)
      · have he : t = ⟨db.next_tag_id, name, cat, 1, now⟩ := by simpa using h
        rw [he]
        exact Nat.lt_succ_self _
    · intro pt hm
      rcases List.mem_append.mp hm with h | h
      · exact Nat.lt_succ_of_lt (hp pt h)
      · have he : pt = (pid, db.next_tag_id) := by simpa using h
        rw [he]
        exact Nat.lt_succ_self _
  | true =>
    have hs : (db.tags.find? (fun t => t.tag_name == name)).isSome :=
      List.find?_isSome.mpr (List.any_eq_true.mp hAny)
    obtain ⟨t0, hfind⟩ := Option.isSome_iff_exists.mp hs
    rw [linkTag_eq_exist db pid name cat now t0 hfind]
    exact insertPhotoTag_WF _ pid t0.tag_id (WF_mapInc db name hwf)
      (hwf.2.2.1 t0 (List.mem_of_find?_eq_some hfind))

/-! ## Helper lemmas: usage counts vs association rows -/

theorem rowCount_eq_of_pt (db1 db2 : DB) (tid : Nat)
    (h : db1.photo_tags = db2.photo_tags) : rowCount db1 tid = rowCount db2 tid := by
  unfold rowCount
  rw [h]

theorem filter_snoc_length (l : List (String × Nat)) (x : String × Nat) (tid : Nat) :
    ((l ++ [x]).filter (fun pt => pt.2 == tid)).length =
      (l.filter (fun pt => pt.2 == tid)).length + (if x.2 = tid then 1 else 0) := by
  rw [List.filter_append]
  cases h : (x.2 == tid) with
  | false =>
    have hne : ¬(x.2 = tid) := by simpa using h
    simp [List.filter, h, hne]
  | true =>
    have he : x.2 = tid := by simpa using h
    simp [List.filter, h, he]

theorem rowCount_zero_of_bound (db : DB) (tid : Nat)
    (hp : ∀ pt ∈ db.photo_tags, pt.2 < tid) : rowCount db tid = 0 := by
  unfold rowCount
  rw [List.filter_eq_nil_iff.mpr]
  · rfl
  · intro a ha
    simp [Nat.ne_of_lt (hp a ha)]

theorem linkTag_usage (db : DB) (pid name cat : String) (now : Nat)
    (hwf : WF db) (hinv : UsageInv db) : UsageInv (linkTag db pid name cat now) := by
  cases hAny : db.tags.any (fun t => t.tag_name == name) with
  | false =>
    rw [linkTag_eq_new db pid name cat now hAny hwf.2.2.2]
    intro t ht
    rcases List.mem_append.mp ht with h | h
    · have hlt := hwf.2.2.1 t h
      show ((db.photo_tags ++ [(pid, db.next_tag_id)]).filter
        (fun pt => pt.2 == t.tag_id)).length ≤ t.usage_count
      rw [filter_snoc_length db.photo_tags (pid, db.next_tag_id) t.tag_id]
      have hne : ¬((pid, db.next_tag_id).2 = t.tag_id) := Nat.ne_of_gt hlt
      rw [if_neg hne, Nat.add_zero]
      exact hinv t h
    · have he : t = ⟨db.next_tag_id, name, cat, 1, now⟩ := by simpa using h
      rw [he]
      show ((db.photo_tags ++ [(pid, db.next_tag_id)]).filter
        (fun pt => pt.2 == db.next_tag_id)).length ≤ 1
      rw [filter_snoc_length db.photo_tags (pid, db.next_tag_id) db.next_tag_id]
      have hz : rowCount db db.next_tag_id = 0 :=
        rowCount_zero_of_bound db db.next_tag_id hwf.2.2.2
      unfold rowCount at hz
      rw [hz, if_pos rfl]
  | true =>
    have hs : (db.tags.find? (fun t => t.tag_name == name)).isSome :=
      List.find?_isSome.mpr (List.any_eq_true.mp hAny)
    obtain ⟨t0, hfind⟩ := Option.isSome_iff_exists.mp hs
    rw [linkTag_eq_exist db pid name cat now t0 hfind]
    unfold insertPhotoTag
    split
    · intro t' ht'
      obtain ⟨t, ht, rfl⟩ := List.mem_map.mp ht'
      show rowCount { db with tags := db.tags.map (incTag name) } (incTag name t).tag_id ≤
        (incTag name t).usage_count
      rw [incTag_tag_id]
      calc rowCount { db with tags := db.tags.map (incTag name) } t.tag_id
          = rowCount db t.tag_id := rowCount_eq_of_pt _ db t.tag_id rfl
        _ ≤ t.usage_count := hinv t ht
        _ ≤ (incTag name t).usage_count := incTag_usage_ge name t
    · intro t' ht'
      obtain ⟨t, ht, rfl⟩ := List.mem_map.mp ht'
      show ((db.photo_tags ++ [(pid, t0.tag_id)]).filter
        (fun pt => pt.2 == (incTag name t).tag_id)).length ≤ (incTag name t).usage_count
      rw [incTag_tag_id, filter_snoc_length db.photo_tags (pid, t0.tag_id) t.tag_id]
      by_cases hid : t.tag_id = t0.tag_id
      · have hteq : t = t0 :=
          List.inj_on_of_nodup_map hwf.2.1 ht (List.mem_of_find?_eq_some hfind) hid
        have hmatch : t.tag_name = name := by
          have hp := @List.find?_some Tag (fun t : Tag => t.tag_name == name) t0 db.tags hfind
          rw [hteq]
          simpa using hp
        rw [if_pos (by exact hid.symm ▸ rfl)]
        rw [incTag_of_match name t hmatch]
        exact Nat.add_le_add_right (hinv t ht) 1
      · rw [if_neg (fun e => hid (Eq.symm e)), Nat.add_zero]
        calc (db.photo_tags.filter (fun pt => pt.2 == t.tag_id)).length
            = rowCount db t.tag_id := rfl
          _ ≤ t.usage_count := hinv t ht
          _ ≤ (incTag name t).usage_count := incTag_usage_ge name t

/-! ## Helper lemmas: the association set of a photo -/

theorem mem_assoc_iff (db : DB) (pid m : String) :
    m ∈ assocTagNames db pid ↔
      ∃ t, t ∈ db.tags ∧ (pid, t.tag_id) ∈ db.photo_tags ∧ t.tag_name = m := by
  unfold assocTagNames
  constructor
  · intro h
    obtain ⟨t, ht, hnm⟩ := List.mem_map.mp h
    have h2 := List.mem_filter.mp ht
    exact ⟨t, h2.1, by simpa using h2.2, hnm⟩
  · rintro ⟨t, ht, hpt, hnm⟩
    exact List.mem_map.mpr ⟨t, List.mem_filter.mpr ⟨ht, by simpa using hpt⟩, hnm⟩

theorem linkTag_assoc (db : DB) (pid name cat : String) (now : Nat)
    (hwf : WF db) (m : String) :
    m ∈ assocTagNames (linkTag db pid name cat now) pid ↔
      m = name ∨ m ∈ assocTagNames db pid := by
  cases hAny : db.tags.any (fun t => t.tag_name == name) with
  | false =>
    rw [linkTag_eq_new db pid name cat now hAny hwf.2.2.2]
    rw [mem_assoc_iff, mem_assoc_iff]
    constructor
    · rintro ⟨t, ht, hpt, hnm⟩
      have ht2 : t ∈ db.tags ++ [(⟨db.next_tag_id, name, cat, 1, now⟩ : Tag)] := ht
      have hpt2 : (pid, t.tag_id) ∈ db.photo_tags ++ [(pid, db.next_tag_id)] := hpt
      rcases List.mem_append.mp ht2 with h | h
      · rcases List.mem_append.mp hpt2 with h2 | h2
        · exact Or.inr ⟨t, h, h2, hnm⟩
        · have he : t.tag_id = db.next_tag_id := by simpa using h2
          exact absurd he (Nat.ne_of_lt (hwf.2.2.1 t h))
      · have he : t = ⟨db.next_tag_id, name, cat, 1, now⟩ := by simpa using h
        left
        rw [← hnm, he]
    · rintro (rfl | ⟨t, ht, hpt, hnm⟩)
      · refine ⟨⟨db.next_tag_id, m, cat, 1, now⟩, ?_, ?_, rfl⟩
        · exact List.mem_append.mpr (Or.inr (by simp))
        · exact List.mem_append.mpr (Or.inr (by simp))
      · exact ⟨t, List.mem_append.mpr (Or.inl ht),
          List.mem_append.mpr (Or.inl hpt), hnm⟩
  | true =>
    have hs : (db.tags.find? (fun t => t.tag_name == name)).isSome :=
      List.find?_isSome.mpr (List.any_eq_true.mp hAny)
    obtain ⟨t0, hfind⟩ := Option.isSome_iff_exists.mp hs
    have ht0mem := List.mem_of_find?_eq_some hfind
    have ht0name : t0.tag_name = name := by
      have hp := @List.find?_some Tag (fun t : Tag => t.tag_name == name) t0 db.tags hfind
      simpa using hp
    rw [linkTag_eq_exist db pid name cat now t0 hfind]
    unfold insertPhotoTag
    split
    case isTrue hmem =>
      have hmem2 : (pid, t0.tag_id) ∈ db.photo_tags := by simpa using hmem
      rw [mem_assoc_iff, mem_assoc_iff]
      constructor
      · rintro ⟨t', ht', hpt', hnm⟩
        have ht'2 : t' ∈ db.tags.map (incTag name) := ht'
        obtain ⟨t, ht, rfl⟩ := List.mem_map.mp ht'2
        refine Or.inr ⟨t, ht, ?_, ?_⟩
        · have : (pid, (incTag name t).tag_id) ∈ db.photo_tags := hpt'
          rwa [incTag_tag_id] at this
        · rwa [incTag_tag_name] at hnm
      · rintro (rfl | ⟨t, ht, hpt, hnm⟩)
        · refine ⟨incTag m t0, List.mem_map.mpr ⟨t0, ht0mem, rfl⟩, ?_, ?_⟩
          · show (pid, (incTag m t0).tag_id) ∈ db.photo_tags
            rw [incTag_tag_id]
            exact hmem2
          · rw [incTag_tag_name, ht0name]
        · refine ⟨incTag name t, List.mem_map.mpr ⟨t, ht, rfl⟩, ?_, ?_⟩
          · show (pid, (incTag name t).tag_id) ∈ db.photo_tags
            rw [incTag_tag_id]
            exact hpt
          · rw [incTag_tag_name]
            exact hnm
    case isFalse hmem =>
      rw [mem_assoc_iff, mem_assoc_iff]
      constructor
      · rintro ⟨t', ht', hpt', hnm⟩
        have ht'2 : t' ∈ db.tags.map (incTag name) := ht'
        obtain ⟨t, ht, rfl⟩ := List.mem_map.mp ht'2
        have hpt2 : (pid, t.tag_id) ∈ db.photo_tags ++ [(pid, t0.tag_id)] := by
          have : (pid, (incTag name t).tag_id) ∈
            db.photo_tags ++ [(pid, t0.tag_id)] := hpt'
          rwa [incTag_tag_id] at this
        rcases List.mem_append.mp hpt2 with h2 | h2
        · refine Or.inr ⟨t, ht, h2, ?_⟩
          rwa [incTag_tag_name] at hnm
        · have he : t.tag_id = t0.tag_id := by simpa using h2
          have hteq : t = t0 := List.inj_on_of_nodup_map hwf.2.1 ht ht0mem he
          left
          rw [← hnm, incTag_tag_name, hteq, ht0name]
      · rintro (rfl | ⟨t, ht, hpt, hnm⟩)
        · refine ⟨incTag m t0, List.mem_map.mpr ⟨t0, ht0mem, rfl⟩, ?_, ?_⟩
          · show (pid, (incTag m t0).tag_id) ∈ db.photo_tags ++ [(pid, t0.tag_id)]
            rw [incTag_tag_id]
            exact List.mem_append.mpr (Or.inr (by simp))
          · rw [incTag_tag_name, ht0name]
        · refine ⟨incTag name t, List.mem_map.mpr ⟨t, ht, rfl⟩, ?_, ?_⟩
          · show (pid, (incTag name t).tag_id) ∈ db.photo_tags ++ [(pid, t0.tag_id)]
            rw [incTag_tag_id]
            exact List.mem_append.mpr (Or.inl hpt)
          · rw [incTag_tag_name]
            exact hnm

/-! ## Helper lemmas: the tag-rewrite fold and the full save -/

theorem foldl_linkTag_WF (pairs : List (String × String)) (db : DB) (pid : String)
    (now : Nat) (hwf : WF db) :
    WF (pairs.foldl (fun d p => linkTag d pid p.1 p.2 now) db) := by
  induction pairs generalizing db with
  | nil => exact hwf
  | cons q rest ih =>
    rw [List.foldl_cons]
    exact ih _ (linkTag_WF db pid q.1 q.2 now hwf)

theorem foldl_linkTag_usage (pairs : List (String × String)) (db : DB) (pid : String)
    (now : Nat) (hwf : WF db) (hinv : UsageInv db) :
    UsageInv (pairs.foldl (fun d p => linkTag d pid p.1 p.2 now) db) := by
  induction pairs generalizing db with
  | nil => exact hinv
  | cons q rest ih =>
    rw [List.foldl_cons]
    exact ih _ (linkTag_WF db pid q.1 q.2 now hwf)
      (linkTag_usage db pid q.1 q.2 now hwf hinv)

theorem foldl_linkTag_assoc (pairs : List (String × String)) (db : DB) (pid : String)
    (now : Nat) (hwf : WF db) (m : String) :
    m ∈ assocTagNames (pairs.foldl (fun d p => linkTag d pid p.1 p.2 now) db) pid ↔
      m ∈ pairs.map Prod.fst ∨ m ∈ assocTagNames db pid := by
  induction pairs generalizing db with
  | nil => simp
  | cons q rest ih =>
    rw [List.foldl_cons,
        ih (linkTag db pid q.1 q.2 now) (linkTag_WF db pid q.1 q.2 now hwf),
        linkTag_assoc db pid q.1 q.2 now hwf m]
    simp only [List.map_cons, List.mem_cons]
    tauto

/-- `saveClassification` with its let-bindings written out. -/
theorem saveClassification_eq (db : DB) (pid : String) (c : ClassificationResult)
    (now : Nat) :
    saveClassification db pid c now =
      (taggedPairs c).foldl (fun d p => linkTag d pid p.1 p.2 now)
        { updateRow db pid (fun r =>
            { r with all_tags_searchable := String.intercalate " " (allTagsOf c),
                     classification_status := "completed",
                     confidence_score := some c.confidence_score,
                     completed_ts := some now })
          with photo_tags := db.photo_tags.filter (fun pt => pt.1 != pid) } := rfl

theorem taggedPairs_fst (c : ClassificationResult) :
    (taggedPairs c).map Prod.fst = allTagsOf c := by
  unfold taggedPairs allTagsOf
  simp only [List.map_append, List.map_map]
  have h : ∀ (s : String) (l : List String),
      List.map (Prod.fst ∘ fun n => (n, s)) l = l := by
    intro s l
    have he : (Prod.fst ∘ fun n : String => (n, s)) = id := rfl
    rw [he, List.map_id]
  rw [h, h, h, h, h]

theorem save_WF (db : DB) (pid : String) (c : ClassificationResult) (now : Nat)
    (hwf : WF db) : WF (saveClassification db pid c now) := by
  rw [saveClassification_eq]
  apply foldl_linkTag_WF
  obtain ⟨hn, hi, hb, hp⟩ := hwf
  refine ⟨hn, hi, hb, ?_⟩
  intro pt hm
  exact hp pt (List.mem_of_mem_filter hm)

theorem save_usage (db : DB) (pid : String) (c : ClassificationResult) (now : Nat)
    (hwf : WF db) (hinv : UsageInv db) :
    UsageInv (saveClassification db pid c now) := by
  rw [saveClassification_eq]
  apply foldl_linkTag_usage
  · obtain ⟨hn, hi, hb, hp⟩ := hwf
    refine ⟨hn, hi, hb, ?_⟩
    intro pt hm
    exact hp pt (List.mem_of_mem_filter hm)
  · intro t ht
    have hsub : List.Sublist
        ((db.photo_tags.filter (fun pt => pt.1 != pid)).filter
          (fun pt => pt.2 == t.tag_id))
        (db.photo_tags.filter (fun pt => pt.2 == t.tag_id)) :=
      List.Sublist.filter _ (List.filter_sublist db.photo_tags)
    exact le_trans (List.Sublist.length_le hsub) (hinv t ht)

theorem assoc_after_delete (db : DB) (pid : String) (f : ClassRow → ClassRow)
    (m : String) :
    m ∉ assocTagNames
      { updateRow db pid f with photo_tags := db.photo_tags.filter (fun pt => pt.1 != pid) }
      pid := by
  intro h
  obtain ⟨t, _, hpt, _⟩ := (mem_assoc_iff _ pid m).mp h
  have hpt2 : (pid, t.tag_id) ∈ db.photo_tags.filter (fun pt => pt.1 != pid) := hpt
  have := (List.mem_filter.mp hpt2).2
  simp at this

theorem save_assoc (db : DB) (pid : String) (c : ClassificationResult) (now : Nat)
    (hwf : WF db) (m : String) :
    m ∈ assocTagNames (saveClassification db pid c now) pid ↔ m ∈ allTagsOf c := by
  rw [saveClassification_eq]
  have hwf2 : WF { updateRow db pid (fun r =>
      { r with all_tags_searchable := String.intercalate " " (allTagsOf c),
               classification_status := "completed",
               confidence_score := some c.confidence_score,
               completed_ts := some now })
      with photo_tags := db.photo_tags.filter (fun pt => pt.1 != pid) } := by
    obtain ⟨hn, hi, hb, hp⟩ := hwf
    refine ⟨hn, hi, hb, ?_⟩
    intro pt hm
    exact hp pt (List.mem_of_mem_filter hm)
  rw [foldl_linkTag_assoc _ _ pid now hwf2 m, taggedPairs_fst]
  constructor
  · rintro (h | h)
    · exact h
    · exact absurd h (assoc_after_delete db pid _ m)
  · exact Or.inl

/-! ## Helper lemmas: reachable states -/

theorem WF_of_fields (db1 db2 : DB) (ht : db2.tags = db1.tags)
    (hpt : db2.photo_tags = db1.photo_tags) (hn : db2.next_tag_id = db1.next_tag_id)
    (hwf : WF db1) : WF db2 := by
  unfold WF
  rw [ht, hpt, hn]
  exact hwf

theorem usage_of_fields (db1 db2 : DB) (ht : db2.tags = db1.tags)
    (hpt : db2.photo_tags = db1.photo_tags) (hinv : UsageInv db1) : UsageInv db2 := by
  unfold UsageInv rowCount
  rw [ht, hpt]
  exact hinv

theorem applyOp_WF_usage (db : DB) (op : Op) (hwf : WF db) (hinv : UsageInv db) :
    WF (applyOp db op) ∧ UsageInv (applyOp db op) := by
  cases op with
  | claim pid now =>
    exact ⟨WF_of_fields db _ (mark_tags db pid now) (mark_photo_tags db pid now)
        (mark_next db pid now) hwf,
      usage_of_fields db _ (mark_tags db pid now) (mark_photo_tags db pid now) hinv⟩
  | save pid c now =>
    exact ⟨save_WF db pid c now hwf, save_usage db pid c now hwf hinv⟩
  | saveError pid msg =>
    exact ⟨WF_of_fields db _ rfl rfl rfl hwf, usage_of_fields db _ rfl rfl hinv⟩

theorem applyOps_WF_usage (ops : List Op) (db : DB) (hwf : WF db) (hinv : UsageInv db) :
    WF (applyOps db ops) ∧ UsageInv (applyOps db ops) := by
  induction ops generalizing db with
  | nil => exact ⟨hwf, hinv⟩
  | cons op rest ih =>
    have h := applyOp_WF_usage db op hwf hinv
    exact ih (applyOp db op) h.1 h.2

theorem WF_empty : WF DB.empty := by
  refine ⟨List.nodup_nil, List.nodup_nil, ?_, ?_⟩ <;> intro x hx <;> cases hx

theorem usage_empty : UsageInv DB.empty := by
  intro t ht
  cases ht

/-! ## Helper lemmas: the orchestrator loop -/

theorem classifyStep_failure (outcome : String → AttemptOutcome) (now : Nat)
    (acc : DB × ClassificationStats) (p : Photo) (msg : String)
    (h : outcome p.photo_id = AttemptOutcome.failure msg) :
    classifyStep outcome now acc p =
      (saveClassificationError (markPhotoAsProcessing acc.1 p.photo_id now)
         p.photo_id msg,
       { acc.2 with processed := acc.2.processed + 1, failed := acc.2.failed + 1 }) := by
  unfold classifyStep classifySinglePhoto
  rw [h]

theorem classifyStep_success (outcome : String → AttemptOutcome) (now : Nat)
    (acc : DB × ClassificationStats) (p : Photo) (r : ClassificationResult)
    (tier : ModelTier) (h : outcome p.photo_id = AttemptOutcome.success r tier) :
    classifyStep outcome now acc p =
      (saveClassification (markPhotoAsProcessing acc.1 p.photo_id now) p.photo_id r now,
       { acc.2 with processed := acc.2.processed + 1,
                    successful := acc.2.successful + 1 }) := by
  unfold classifyStep classifySinglePhoto
  rw [h]

theorem foldl_classify_stats (outcome : String → AttemptOutcome) (now : Nat)
    (l : List Photo) (db : DB) (stats : ClassificationStats) :
    (l.foldl (classifyStep outcome now) (db, stats)).2.processed =
        stats.processed + l.length ∧
    (l.foldl (classifyStep outcome now) (db, stats)).2.successful =
        stats.successful + l.countP (fun p => !(isFailureOutcome (outcome p.photo_id))) ∧
    (l.foldl (classifyStep outcome now) (db, stats)).2.failed =
        stats.failed + l.countP (fun p => isFailureOutcome (outcome p.photo_id)) := by
  induction l generalizing db stats with
  | nil => simp
  | cons p rest ih =>
    rw [List.foldl_cons]
    cases ho : outcome p.photo_id with
    | failure msg =>
      rw [classifyStep_failure outcome now (db, stats) p msg ho]
      have := ih (saveClassificationError (markPhotoAsProcessing db p.photo_id now)
        p.photo_id msg)
        { stats with processed := stats.processed + 1, failed := stats.failed + 1 }
      refine ⟨?_, ?_, ?_⟩
      · rw [this.1]
        simp [Nat.add_assoc, Nat.add_comm 1]
      · rw [this.2.1]
        simp [List.countP_cons, isFailureOutcome, ho]
      · rw [this.2.2]
        simp [List.countP_cons, isFailureOutcome, ho, Nat.add_assoc, Nat.add_comm 1]
    | success r tier =>
      rw [classifyStep_success outcome now (db, stats) p r tier ho]
      have := ih (saveClassification (markPhotoAsProcessing db p.photo_id now)
        p.photo_id r now)
        { stats with processed := stats.processed + 1,
                     successful := stats.successful + 1 }
      refine ⟨?_, ?_, ?_⟩
      · rw [this.1]
        simp [Nat.add_assoc, Nat.add_comm 1]
      · rw [this.2.1]
        simp [List.countP_cons, isFailureOutcome, ho, Nat.add_assoc, Nat.add_comm 1]
      · rw [this.2.2]
        simp [List.countP_cons, isFailureOutcome, ho]

theorem foldl_classify_preserves_row (outcome : String → AttemptOutcome) (now : Nat)
    (l : List Photo) (db : DB) (stats : ClassificationStats) (pid : String)
    (hne : ∀ q ∈ l, q.photo_id ≠ pid) :
    findRow (l.foldl (classifyStep outcome now) (db, stats)).1 pid = findRow db pid := by
  induction l generalizing db stats with
  | nil => rfl
  | cons p rest ih =>
    rw [List.foldl_cons]
    have hp : p.photo_id ≠ pid := hne p (List.mem_cons_self p rest)
    have hrest : ∀ q ∈ rest, q.photo_id ≠ pid :=
      fun q hq => hne q (List.mem_cons_of_mem p hq)
    cases ho : outcome p.photo_id with
    | failure msg =>
      rw [classifyStep_failure outcome now (db, stats) p msg ho, ih _ _ hrest,
          findRow_saveError_ne _ _ _ _ hp, findRow_mark_ne _ _ _ _ hp]
    | success r tier =>
      rw [classifyStep_success outcome now (db, stats) p r tier ho, ih _ _ hrest,
          findRow_save_ne _ _ _ _ _ hp, findRow_mark_ne _ _ _ _ hp]

theorem mark_row_exists (db : DB) (pid : String) (now : Nat) :
    ∃ r, findRow (markPhotoAsProcessing db pid now) pid = some r := by
  cases h : findRow db pid with
  | none => exact ⟨_, findRow_mark_of_none db pid now h⟩
  | some r => exact ⟨_, findRow_mark_of_some db pid now r h⟩

theorem foldl_classify_failed_row (outcome : String → AttemptOutcome) (now : Nat)
    (l : List Photo) (db : DB) (stats : ClassificationStats) (p : Photo) (msg : String)
    (hmem : p ∈ l) (hnodup : (l.map (fun q => q.photo_id)).Nodup)
    (ho : outcome p.photo_id = AttemptOutcome.failure msg) :
    ∃ r, findRow (l.foldl (classifyStep outcome now) (db, stats)).1 p.photo_id = some r ∧
      r.classification_status = "failed" ∧ r.error_message = some msg := by
  induction l generalizing db stats with
  | nil => cases hmem
  | cons q rest ih =>
    rw [List.foldl_cons]
    rcases List.mem_cons.mp hmem with he | hm
    · subst he
      rw [classifyStep_failure outcome now (db, stats) p msg ho]
      have hrest : ∀ x ∈ rest, x.photo_id ≠ p.photo_id := by
        intro x hx he2
        have : p.photo_id ∉ rest.map (fun q => q.photo_id) :=
          (List.nodup_cons.mp hnodup).1
        exact this (he2 ▸ List.mem_map.mpr ⟨x, hx, rfl⟩)
      rw [foldl_classify_preserves_row outcome now rest _ _ p.photo_id hrest]
      obtain ⟨r1, hr1⟩ := mark_row_exists db p.photo_id now
      exact ⟨_, findRow_saveError_of_some _ p.photo_id msg r1 hr1, rfl, rfl⟩
    · have hnd : (rest.map (fun q => q.photo_id)).Nodup := (List.nodup_cons.mp hnodup).2
      cases hoq : outcome q.photo_id with
      | failure m2 =>
        rw [classifyStep_failure outcome now (db, stats) q m2 hoq]
        exact ih _ _ hm hnd
      | success r tier =>
        rw [classifyStep_success outcome now (db, stats) q r tier hoq]
        exact ih _ _ hm hnd

theorem getUnclassified_pids_nodup (db : DB) (photos : List Photo) (limit now : Nat)
    (hnodup : (photos.map (fun q => q.photo_id)).Nodup) :
    ((getUnclassifiedPhotos db photos limit now).map (fun q => q.photo_id)).Nodup := by
  unfold getUnclassifiedPhotos
  have h1 : ((photos.filter (eligibleB db now)).map (fun q => q.photo_id)).Nodup :=
    List.Nodup.sublist (List.Sublist.map _ (List.filter_sublist photos)) hnodup
  have h2 : (((photos.filter (eligibleB db now)).insertionSort byRecency).map
      (fun q => q.photo_id)).Nodup :=
    ((List.perm_insertionSort byRecency _).map _).nodup_iff.mpr h1
  exact List.Nodup.sublist (List.Sublist.map _ (List.take_sublist _ _)) h2

theorem countP_not_add {α : Type} (l : List α) (p : α → Bool) :
    l.countP (fun a => !(p a)) + l.countP p = l.length := by
  induction l with
  | nil => rfl
  | cons x rest ih =>
    cases h : p x <;>
      simp [List.countP_cons, h, ← ih] <;> omega

theorem eligibleB_iff (db : DB) (now : Nat) (p : Photo) :
    eligibleB db now p = true ↔
      (findRow db p.photo_id = none ∨
        ∃ r, findRow db p.photo_id = some r ∧
          ((r.classification_status = "failed" ∧ r.retry_count < 3) ∨
           (r.classification_status = "processing" ∧
             ∃ la, r.last_attempt_ts = some la ∧ la < now - fiveMinutesMs))) := by
  unfold eligibleB
  cases h : findRow db p.photo_id with
  | none => simp [h]
  | some r =>
    cases hla : r.last_attempt_ts with
    | none => simp [h, hla]
    | some la => simp [h, hla]

/-! ## The claims -/

/-- C1, counterexample: the free tier returns a structurally valid
response violating the people-proximity business rule; the client
nevertheless re-issues the request against the paid tier (the
validation error is thrown inside `callOpenRouterAPI`, and the
`try`/`catch` of `classifyPhotoWithFallback` catches every error from
that call), so both tiers are called and the attempt succeeds on the
paid tier — contradicting the claim that a validation failure never
triggers cross-tier fallback. -/
theorem c1_counterexample :
    callOpenRouterAPI (TierContent.parsed rawPeopleNoProximity) =
      Except.error
        "people_tags with \"people\" must include either \"close\" or \"distant\"" ∧
    (classifyPhotoWithFallback (TierContent.parsed rawPeopleNoProximity)
        (TierContent.parsed rawGoodExample)).2 = [ModelTier.free, ModelTier.paid] ∧
    (classifyPhotoWithFallback (TierContent.parsed rawPeopleNoProximity)
        (TierContent.parsed rawGoodExample)).1 =
      Except.ok (goodExampleResult, ModelTier.paid) :=
  ⟨rfl, rfl, rfl⟩

/-- C1, amended: when the primary (free) tier call fails for any reason
— including a business-rule validation failure of its response — the
client re-issues the identical request against the secondary (paid)
tier, and the attempt's result is whatever the paid-tier call produces;
only a failure on the paid tier is terminal for the attempt. -/
theorem c1_fallback_on_free_error (freeResp paidResp : TierContent) (e : String)
    (h : callOpenRouterAPI freeResp = Except.error e) :
    (classifyPhotoWithFallback freeResp paidResp).2 =
      [ModelTier.free, ModelTier.paid] ∧
    (classifyPhotoWithFallback freeResp paidResp).1 =
      (callOpenRouterAPI paidResp).map (fun r => (r, ModelTier.paid)) := by
  unfold classifyPhotoWithFallback
  rw [h]
  cases hp : callOpenRouterAPI paidResp <;> simp [Except.map]

/-- C1, witness: the amended statement at the proximity-violating free
response and the valid paid response. -/
theorem c1_witness :
    (classifyPhotoWithFallback (TierContent.parsed rawPeopleNoProximity)
        (TierContent.parsed rawGoodExample)).2 = [ModelTier.free, ModelTier.paid] ∧
    (classifyPhotoWithFallback (TierContent.parsed rawPeopleNoProximity)
        (TierContent.parsed rawGoodExample)).1 =
      (callOpenRouterAPI (TierContent.parsed rawGoodExample)).map
        (fun r => (r, ModelTier.paid)) :=
  c1_fallback_on_free_error (TierContent.parsed rawPeopleNoProximity)
    (TierContent.parsed rawGoodExample)
    "people_tags with \"people\" must include either \"close\" or \"distant\"" rfl

/-- C2, counterexample: claiming and saving the same photo twice with
the same validated result leaves tag `a` with `usage_count = 2` while
only one PhotoTag row references it — the delete step of the rewrite
never decrements `usage_count`, refuting the equality invariant. -/
theorem c2_counterexample :
    usageOfTag dC2 "a" = some 2 ∧ rowCountOfTag dC2 "a" = some 1 :=
  ⟨rfl, rfl⟩

/-- C2, amended: at every state reachable from the empty database by
claim, saveClassification and saveClassificationError operations, every
tag's `usage_count` is an upper bound on the number of PhotoTag rows
referencing it (equality can fail after a re-classification, as the
counterexample shows). -/
theorem c2_usage_count_bounds_rows (ops : List Op) :
    ∀ t ∈ (applyOps DB.empty ops).tags,
      rowCount (applyOps DB.empty ops) t.tag_id ≤ t.usage_count :=
  (applyOps_WF_usage ops DB.empty WF_empty usage_empty).2

/-- C2, witness: the amended bound at the double-save state, for the
tag named `a` (id 1, usage 2, one row). -/
theorem c2_witness :
    rowCount (applyOps DB.empty opsC2) 1 ≤ 2 :=
  c2_usage_count_bounds_rows opsC2 ⟨1, "a", "content", 2, 20⟩ (by decide)

/-- C3, counterexample: a photo with no prior Classification row is
claimed once and the attempt then fails; the row's `retry_count` is 0,
not 1 — the insert arm of the upsert writes `retry_count = 0` and only
the conflict arm increments. -/
theorem c3_counterexample :
    (findRow dC3 "p1").map (fun r => r.retry_count) = some 0 ∧
    (findRow dC3 "p1").map (fun r => r.retry_count) ≠ some 1 := by
  refine ⟨rfl, ?_⟩
  intro h
  rw [show (findRow dC3 "p1").map (fun r => r.retry_count) = some 0 from rfl] at h
  cases h

/-- C3, amended: the claim upsert sets status to processing and
last_attempt to now in both arms; a photo with no prior row gets
`retry_count = 0` (so after a first claim and a validation failure the
row's retry_count is 0), while a photo with an existing row has its
`retry_count` incremented. -/
theorem c3_claim_upsert (db : DB) (pid : String) (now : Nat) :
    (findRow db pid = none →
      findRow (markPhotoAsProcessing db pid now) pid =
        some ⟨pid, "", "processing", none, 0, some now, none, none⟩) ∧
    (∀ r, findRow db pid = some r →
      findRow (markPhotoAsProcessing db pid now) pid =
        some { r with classification_status := "processing",
                      last_attempt_ts := some now,
                      retry_count := r.retry_count + 1 }) :=
  ⟨findRow_mark_of_none db pid now, fun r h => findRow_mark_of_some db pid now r h⟩

/-- C3, witness: the insert arm at the empty database. -/
theorem c3_witness :
    findRow (markPhotoAsProcessing DB.empty "p1" 5) "p1" =
      some ⟨"p1", "", "processing", none, 0, some 5, none, none⟩ :=
  (c3_claim_upsert DB.empty "p1" 5).1 rfl

/-- C4: the successful-save row update sets status completed,
confidence and completed_ts and writes the searchable text, but does
not clear `error_message` — saving a valid result over a row whose
earlier failed attempt recorded an error leaves that error in place on
the completed row, contradicting the claim (and the repo's own design
document, whose upsert includes `error_message = NULL`). -/
theorem c4_error_message_not_cleared :
    (findRow (saveClassification dbC4 "p1" cSmall 60) "p1").map
        (fun r => (r.classification_status, r.error_message)) =
      some ("completed", some "previous error") :=
  rfl

/-- C5, counterexample: the same photo is selected when it has no
Classification row but is not selected when it has a row with status
`pending` — a `pending` row is not equivalent to an absent row for the
selection query, whose WHERE clause matches no-row, failed-under-cap
and stale-processing rows only. -/
theorem c5_counterexample :
    getUnclassifiedPhotos dbPending [pC5] 10 1000000 = [] ∧
    getUnclassifiedPhotos DB.empty [pC5] 10 1000000 = [pC5] :=
  ⟨rfl, rfl⟩

/-- C5, amended: absence of a row leaves a photo eligible for
selection, but a row with status `pending` makes it ineligible — the
photo is excluded from every selection result, so the claimed
equivalence fails in the pending-row direction. -/
theorem c5_pending_vs_absent (db : DB) (now : Nat) (p : Photo) :
    (findRow db p.photo_id = none → eligibleB db now p = true) ∧
    (∀ r, findRow db p.photo_id = some r → r.classification_status = "pending" →
      eligibleB db now p = false ∧
      ∀ photos limit, p ∉ getUnclassifiedPhotos db photos limit now) := by
  refine ⟨eligibleB_of_no_row db now p, ?_⟩
  intro r h hst
  have hel := eligibleB_pending db now p r h hst
  exact ⟨hel, fun photos limit =>
    not_mem_getUnclassified_of_ineligible db photos limit now p hel⟩

/-- C5, witness: the amended statement at the pending-row database. -/
theorem c5_witness :
    eligibleB dbPending 1000000 pC5 = false ∧
      pC5 ∉ getUnclassifiedPhotos dbPending [pC5] 10 1000000 := by
  have h := (c5_pending_vs_absent dbPending 1000000 pC5).2 rowPending rfl rfl
  exact ⟨h.1, h.2 [pC5] 10⟩

/-- C6: for every photo with a claimed row, the searchable text
persisted by saveClassification is the space-join of all returned tags
in the fixed category order content, people, mood, color, quality. -/
theorem c6_searchable_text (db : DB) (pid : String) (c : ClassificationResult)
    (now : Nat) (r : ClassRow) (h : findRow db pid = some r) :
    (findRow (saveClassification db pid c now) pid).map
        (fun x => x.all_tags_searchable) =
      some (String.intercalate " "
        (c.content_tags ++ c.people_tags ++ c.mood_tags ++
          c.color_tags ++ c.quality_tags)) := by
  rw [findRow_save_of_some db pid c now r h]
  rfl

/-- C6, witness: the §8 example input yields exactly
`nature sky no_people peaceful blue white sharp professional`. -/
theorem c6_witness :
    (findRow (saveClassification dbC6 "p1" goodExampleResult 99) "p1").map
        (fun x => x.all_tags_searchable) =
      some "nature sky no_people peaceful blue white sharp professional" := by
  rw [c6_searchable_text dbC6 "p1" goodExampleResult 99 rowC6 rfl]
  rfl

/-- C7: the selection returns at most `limit` photos; eligibility is
exactly no-row, or failed with retry_count < 3, or processing with a
stale last_attempt; every returned photo comes from the input and is
eligible; the result is ordered by photo creation time newest first;
a photo whose row is failed with retry_count ≥ 3 is never returned; and
when the eligible set fits the limit every eligible photo is returned. -/
theorem c7_selection (db : DB) (photos : List Photo) (limit now : Nat) :
    (getUnclassifiedPhotos db photos limit now).length ≤ limit ∧
    (∀ p : Photo, eligibleB db now p = true ↔
      (findRow db p.photo_id = none ∨
        ∃ r, findRow db p.photo_id = some r ∧
          ((r.classification_status = "failed" ∧ r.retry_count < 3) ∨
           (r.classification_status = "processing" ∧
             ∃ la, r.last_attempt_ts = some la ∧ la < now - fiveMinutesMs)))) ∧
    (∀ p ∈ getUnclassifiedPhotos db photos limit now,
      p ∈ photos ∧ eligibleB db now p = true) ∧
    List.Sorted byRecency (getUnclassifiedPhotos db photos limit now) ∧
    (∀ (p : Photo) (r : ClassRow), findRow db p.photo_id = some r →
      r.classification_status = "failed" → 3 ≤ r.retry_count →
      p ∉ getUnclassifiedPhotos db photos limit now) ∧
    ((photos.filter (eligibleB db now)).length ≤ limit →
      ∀ p ∈ photos, eligibleB db now p = true →
        p ∈ getUnclassifiedPhotos db photos limit now) :=
  ⟨length_getUnclassified_le db photos limit now,
   fun p => eligibleB_iff db now p,
   fun p hp => mem_getUnclassified db photos limit now p hp,
   sorted_getUnclassified db photos limit now,
   fun p r h hst hr => not_mem_getUnclassified_of_ineligible db photos limit now p
     (eligibleB_retry_capped db now p r h hst hr),
   fun hlim p hp he => getUnclassified_complete db photos limit now hlim p hp he⟩

/-- C7, witness: a photo failed with retry_count = 3 is not selected. -/
theorem c7_witness :
    pC5 ∉ getUnclassifiedPhotos dbC7 [pC5, pC7b] 5 1000000 :=
  (c7_selection dbC7 [pC5, pC7b] 5 1000000).2.2.2.2.1 pC5 rowRetryCap rfl rfl
    (by decide)

/-- C8: for any well-formed database, after saving result R1 and then
result R2 for the same photo, the tag names associated to that photo
through PhotoTag rows are exactly the tags of R2 — nothing from R1
survives the rewrite. -/
theorem c8_rewrite_exact (db : DB) (pid : String) (c1 c2 : ClassificationResult)
    (t1 t2 : Nat) (hwf : WF db) (m : String) :
    m ∈ assocTagNames
        (saveClassification (saveClassification db pid c1 t1) pid c2 t2) pid ↔
      m ∈ allTagsOf c2 :=
  save_assoc (saveClassification db pid c1 t1) pid c2 t2
    (save_WF db pid c1 t1 hwf) m

/-- C8, witness: after saving `cSmall` then `cAlt` for one photo, the
tag `a` of the first result is no longer associated. -/
theorem c8_witness :
    ("a" ∈ assocTagNames
        (saveClassification (saveClassification DB.empty "p1" cSmall 10) "p1" cAlt 20)
        "p1" ↔
      "a" ∈ allTagsOf cAlt) :=
  c8_rewrite_exact DB.empty "p1" cSmall cAlt 10 20 WF_empty "a"

/-- C9: in a batch run every selected photo is processed (the counts
add up over the whole batch), and for every photo whose attempt throws,
the error is caught and persisted via saveClassificationError — the
photo's row ends failed with the thrown message even though later
photos of the batch are still processed. -/
theorem c9_per_item_isolation (db : DB) (photos : List Photo) (limit now : Nat)
    (outcome : String → AttemptOutcome)
    (hnodup : (photos.map (fun q => q.photo_id)).Nodup) :
    (classifyPhotos db photos limit outcome now).2.processed =
        (getUnclassifiedPhotos db photos limit now).length ∧
    (classifyPhotos db photos limit outcome now).2.successful +
        (classifyPhotos db photos limit outcome now).2.failed =
        (getUnclassifiedPhotos db photos limit now).length ∧
    (∀ p ∈ getUnclassifiedPhotos db photos limit now, ∀ msg,
      outcome p.photo_id = AttemptOutcome.failure msg →
      ∃ r, findRow (classifyPhotos db photos limit outcome now).1 p.photo_id =
          some r ∧
        r.classification_status = "failed" ∧ r.error_message = some msg) := by
  have hstats := foldl_classify_stats outcome now
    (getUnclassifiedPhotos db photos limit now) db ⟨0, 0, 0, 0⟩
  refine ⟨?_, ?_, ?_⟩
  · show (List.foldl (classifyStep outcome now) (db, ⟨0, 0, 0, 0⟩)
      (getUnclassifiedPhotos db photos limit now)).2.processed = _
    rw [hstats.1]
    simp
  · show (List.foldl (classifyStep outcome now) (db, ⟨0, 0, 0, 0⟩)
        (getUnclassifiedPhotos db photos limit now)).2.successful +
      (List.foldl (classifyStep outcome now) (db, ⟨0, 0, 0, 0⟩)
        (getUnclassifiedPhotos db photos limit now)).2.failed = _
    rw [hstats.2.1, hstats.2.2]
    have hc := countP_not_add (getUnclassifiedPhotos db photos limit now)
      (fun p => isFailureOutcome (outcome p.photo_id))
    simpa using hc
  · intro p hp msg ho
    exact foldl_classify_failed_row outcome now
      (getUnclassifiedPhotos db photos limit now) db ⟨0, 0, 0, 0⟩ p msg hp
      (getUnclassified_pids_nodup db photos limit now hnodup) ho

/-- C9, witness: a two-photo batch in which the first photo's attempt
throws `boom`; the batch still processes both, and the first photo's
row is failed with the message. -/
theorem c9_witness :
    ∃ r, findRow (classifyPhotos DB.empty [pC5, pC7b] 5 outcomeC9 1000000).1
        "p1" = some r ∧
      r.classification_status = "failed" ∧ r.error_message = some "boom" :=
  (c9_per_item_isolation DB.empty [pC5, pC7b] 5 1000000 outcomeC9 (by decide)).2.2
    pC5 (by decide) "boom" rfl

/-- C10: two overlapping batch runs over one shared database, both
eligible-selection steps executed before either claim (a schedule the
code permits, since selection and claim are separate statements
interleaved at await points); the single photo `p1` is passed to the
external classification service twice — the atomic insert-or-update
claim alone does not prevent duplicate external calls, contradicting
the claimed guarantee. -/
theorem c10_duplicate_external_calls :
    (runSchedule [pC5] 5 cSmall 1000000 DB.empty schedC10).calls = ["p1", "p1"] ∧
    (runSchedule [pC5] 5 cSmall 1000000 DB.empty schedC10).calls.count "p1" = 2 :=
  ⟨rfl, rfl⟩

end BeautifulPhotos
